import Mathlib

/-!
Verification development for the discord-github-integration repository.

The webhook server (`src/webhook_server.py`), the Discord-embed formatters
(`src/utils/formatters.py`), the GitHub API wrapper (`src/utils/github_api.py`)
and the `/prs` command (`src/bot.py`) are shallowly embedded below.

Conventions of the embedding:
- JSON payloads (Python dicts produced by `request.json`) are values of the
  inductive type `Json`; Python `d[k]` / `d.get(k, dflt)` become `Json.index` /
  `Json.pyGet`, which fail (`PyErr`) exactly where Python raises
  `KeyError` / `TypeError` / `AttributeError`.
- Fallible Python code is embedded in `Except PyErr`; an uncaught exception in
  a Flask handler surfaces as the 500 branch of `handle_webhook`.
- Raw request bodies are byte lists (`List Nat`); `hashlib`/`hmac` are external
  libraries, so the HMAC-SHA256 hex digest is a parameter
  `hmacHex : String → List Nat → String` of the functions that use it.
- Python strings are Lean `String`s; `str.split` is `pySplit` on the
  character list, `str.capitalize()` is `pyCapitalize`, and `str(x)` on a
  payload value is `pyStr` (list/dict renderings abbreviated; no claim
  inspects them).
-/

namespace GhDiscord

/-- Values of a parsed JSON payload (the Python dicts the Flask handler sees). -/
inductive Json where
  | null
  | bool (b : Bool)
  | str (s : String)
  | num (n : Int)
  | arr (elems : List Json)
  | obj (fields : List (String × Json))

/-- The Python exceptions the embedded code can raise. -/
inductive PyErr where
  | keyError (k : String)
  | typeError
  | exn
deriving Repr, DecidableEq

/-- Python truthiness of a payload value (`if x:`). -/
def Json.truthy : Json → Bool
  | .null => false
  | .bool b => b
  | .str s => s != ""
  | .num n => n != 0
  | .arr [] => false
  | .arr (_ :: _) => true
  | .obj [] => false
  | .obj (_ :: _) => true

/-- Whether the value is a Python dict. -/
def Json.isObj : Json → Bool
  | .obj _ => true
  | _ => false

/-- Key lookup on a dict, `none` on any other value or a missing key. -/
def Json.lookupKey (j : Json) (k : String) : Option Json :=
  match j with
  | .obj fs => fs.lookup k
  | _ => none

/-- Python `d[k]`: `KeyError` on a missing key, `TypeError` on a non-dict. -/
def Json.index (j : Json) (k : String) : Except PyErr Json :=
  if j.isObj = true then
    match j.lookupKey k with
    | some v => Except.ok v
    | none => Except.error (PyErr.keyError k)
  else Except.error PyErr.typeError

/-- Python `d.get(k, dflt)`: total on dicts, `AttributeError` (here folded into
`typeError`) on any other value. -/
def Json.pyGet (j : Json) (k : String) (dflt : Json) : Except PyErr Json :=
  if j.isObj = true then Except.ok ((j.lookupKey k).getD dflt)
  else Except.error PyErr.typeError

/-- Python `x == s` for a string literal `s`: false on any non-string value. -/
def Json.isStrEq (j : Json) (s : String) : Bool :=
  match j with
  | .str t => t == s
  | _ => false

/-- The value, when it is a string; `TypeError` otherwise (a Python
`AttributeError`/`TypeError` from calling a string method on it). -/
def Json.asStr : Json → Except PyErr String
  | .str s => Except.ok s
  | _ => Except.error PyErr.typeError

/-- The value, when it is a list; `TypeError` otherwise. -/
def Json.asArr : Json → Except PyErr (List Json)
  | .arr l => Except.ok l
  | _ => Except.error PyErr.typeError

/-- Python `str(x)` of a payload value as used in f-strings; list/dict
renderings are abbreviated (no formatter output inspected by a claim ever
renders one). -/
def pyStr : Json → String
  | .null => "None"
  | .bool true => "True"
  | .bool false => "False"
  | .str s => s
  | .num n => toString n
  | .arr _ => "[...]"
  | .obj _ => "\x7b...\x7d"

/-- Python `str.split(sep)` on the character list: every occurrence of the
separator splits, `"".split(sep) = [""]`. -/
def pySplit (sep : Char) : List Char → List (List Char)
  | [] => [[]]
  | c :: rest =>
    let r := pySplit sep rest
    if c = sep then [] :: r
    else
      match r with
      | [] => [[c]]
      | h :: t => (c :: h) :: t

/-- Python `str.capitalize()`: first character uppercased, the rest lowercased. -/
def pyCapitalize (s : String) : String :=
  match s.data with
  | [] => ""
  | c :: rest => String.mk (c.toUpper :: rest.map Char.toLower)

/-- The scheme tag GitHub puts in front of the hex digest
(`webhook_server.py` line 43). -/
def sigScheme : List Char := "sha256=".data

/-- `verify_signature` from `src/webhook_server.py` lines 27-60.
`hmacHex secret body` stands for
`hmac.new(secret.encode(), body, hashlib.sha256).hexdigest()`; the
`hmac.compare_digest` call is functionally string equality. -/
def verify_signature (hmacHex : String → List Nat → String) (secret : String)
    (payload : List Nat) (signature : Option String) : Bool :=
  match signature with
  | none => false
  | some s =>
    if s = "" then false
    else if sigScheme.isPrefixOf s.data = false then false
    else
      let received := (pySplit '=' s.data).getD 1 []
      let expected := (hmacHex secret payload).data
      decide (expected = received)

/-- One `embed.add_field(name=..., value=..., inline=...)` call. -/
structure EmbedField where
  name : String
  value : String
  inlined : Bool
deriving Repr, DecidableEq

/-- A `discord.Embed` as the formatters build it (the `timestamp=datetime.utcnow()`
argument carries no information the spec or any claim mentions and is omitted). -/
structure Embed where
  title : String
  description : Option String
  color : Nat
  url : Option String
  fields : List EmbedField
  footer : Option String
deriving Repr, DecidableEq

/-- `MessageFormatter.COLOR_BLUE` (`src/utils/formatters.py`). -/
def COLOR_BLUE : Nat := 0x0366d6
/-- `MessageFormatter.COLOR_GREEN`. -/
def COLOR_GREEN : Nat := 0x28a745
/-- `MessageFormatter.COLOR_RED`. -/
def COLOR_RED : Nat := 0xd73a49
/-- `MessageFormatter.COLOR_PURPLE`. -/
def COLOR_PURPLE : Nat := 0x6f42c1
/-- `MessageFormatter.COLOR_ORANGE`. -/
def COLOR_ORANGE : Nat := 0xfb8500

/-- `MessageFormatter.format_commit_notification` (`formatters.py` lines 24-64).
The dead local `commit_url` is still evaluated because its `commit['url']`
lookup can raise. -/
def format_commit_notification (p : Json) : Except PyErr Embed := do
  let refJ ← p.index "ref"
  let refS ← refJ.asStr
  let ref := String.mk ((pySplit '/' refS.data).getLastD [])
  let commitsJ ← p.index "commits"
  let commits ← commitsJ.asArr
  let pusherJ ← p.index "pusher"
  let pusherName ← pusherJ.index "name"
  let repoJ ← p.index "repository"
  let repoName ← repoJ.index "name"
  let compareJ ← p.index "compare"
  let pair ←
    match commits with
    | c :: _ => do
      let msgJ ← c.index "message"
      let msg ← msgJ.asStr
      let message := String.mk (((pySplit '\n' msg.data).getD 0 []).take 100)
      let authorJ ← c.index "author"
      let authorName ← authorJ.index "name"
      let _ ← c.index "url"
      pure (message, pyStr authorName)
    | [] => pure ("No commit message", pyStr pusherName)
  pure
    { title := "New Commit" ++ (if commits.length > 1 then "s" else "") ++ " to `" ++ ref ++ "`"
      description := some ("**" ++ pair.1 ++ "**")
      color := COLOR_BLUE
      url := some (pyStr compareJ)
      fields := [⟨"Author", pair.2, true⟩, ⟨"Branch", "`" ++ ref ++ "`", true⟩,
                 ⟨"Commits", toString commits.length, true⟩]
      footer := some (pyStr repoName) }

/-- `MessageFormatter.format_pull_request_notification` (`formatters.py`
lines 66-123).  The emoji literals are empty strings in the source. -/
def format_pull_request_notification (p : Json) : Except PyErr Embed := do
  let actionJ ← p.index "action"
  let action ← actionJ.asStr
  let pr ← p.index "pull_request"
  let prNumber ← pr.index "number"
  let title ← pr.index "title"
  let userJ ← pr.index "user"
  let author ← userJ.index "login"
  let headJ ← pr.index "head"
  let headRef ← headJ.index "ref"
  let baseJ ← pr.index "base"
  let baseRef ← baseJ.index "ref"
  let branch := pyStr headRef ++ " -> " ++ pyStr baseRef
  let url ← pr.index "html_url"
  let merged ← pr.pyGet "merged" (Json.bool false)
  let esc :=
    if action = "opened" then ("", "Awaiting Review", COLOR_BLUE)
    else if action = "closed" ∧ merged.truthy = true then ("", "Merged", COLOR_PURPLE)
    else if action = "closed" then ("", "Closed", COLOR_RED)
    else if action = "reopened" then ("", "Reopened", COLOR_ORANGE)
    else ("", pyCapitalize action, COLOR_BLUE)
  let baseFields := [⟨"Author", pyStr author, true⟩, ⟨"Status", esc.2.1, true⟩,
                     ⟨"Branch", "`" ++ branch ++ "`", false⟩]
  let fields ←
    if merged.truthy = true ∧ ((pr.lookupKey "merged_by").getD Json.null).truthy = true then do
      let mb ← pr.index "merged_by"
      let login ← mb.index "login"
      pure (baseFields ++ [(⟨"Merged by", pyStr login, true⟩ : EmbedField)])
    else
      pure baseFields
  pure
    { title := esc.1 ++ " Pull Request #" ++ pyStr prNumber ++ " " ++ pyCapitalize action
      description := some ("**" ++ pyStr title ++ "**")
      color := esc.2.2
      url := some (pyStr url)
      fields := fields
      footer := none }

/-- `MessageFormatter.format_review_notification` (`formatters.py` lines 125-172). -/
def format_review_notification (p : Json) : Except PyErr Embed := do
  let review ← p.index "review"
  let pr ← p.index "pull_request"
  let prNumber ← pr.index "number"
  let prTitle ← pr.index "title"
  let userJ ← review.index "user"
  let reviewer ← userJ.index "login"
  let state ← review.index "state"
  let bodyJ ← review.index "body"
  let commentJ := if bodyJ.truthy = true then bodyJ else Json.str "No comment provided"
  let url ← review.index "html_url"
  let esc :=
    if state.isStrEq "approved" = true then ("", "Approved", COLOR_GREEN)
    else if state.isStrEq "changes_requested" = true then ("", "Changes Requested", COLOR_RED)
    else ("", "Commented", COLOR_BLUE)
  let comment ← commentJ.asStr
  let comment := if comment.length > 200 then comment.take 197 ++ "..." else comment
  pure
    { title := esc.1 ++ " Review on PR #" ++ pyStr prNumber
      description := some ("**" ++ pyStr prTitle ++ "**")
      color := esc.2.2
      url := some (pyStr url)
      fields := [⟨"Reviewer", pyStr reviewer, true⟩, ⟨"Status", esc.2.1, true⟩,
                 ⟨"Comment", comment, false⟩]
      footer := none }

/-- `MessageFormatter.format_issue_notification` (`formatters.py` lines 174-213). -/
def format_issue_notification (p : Json) : Except PyErr Embed := do
  let actionJ ← p.index "action"
  let action ← actionJ.asStr
  let issue ← p.index "issue"
  let issueNumber ← issue.index "number"
  let title ← issue.index "title"
  let userJ ← issue.index "user"
  let author ← userJ.index "login"
  let url ← issue.index "html_url"
  let ec :=
    if action = "opened" then ("", COLOR_GREEN)
    else if action = "closed" then ("", COLOR_RED)
    else ("", COLOR_BLUE)
  pure
    { title := ec.1 ++ " Issue #" ++ pyStr issueNumber ++ " " ++ pyCapitalize action
      description := some ("**" ++ pyStr title ++ "**")
      color := ec.2
      url := some (pyStr url)
      fields := [⟨"Author", pyStr author, true⟩]
      footer := none }

/-- `MessageFormatter.format_branch_notification` (`formatters.py` lines 215-249). -/
def format_branch_notification (p : Json) (deleted : Bool) : Except PyErr Embed := do
  let refTypeJ ← p.pyGet "ref_type" (Json.str "branch")
  let refJ ← p.pyGet "ref" (Json.str "unknown")
  let senderJ ← p.index "sender"
  let sender ← senderJ.index "login"
  let eac :=
    if deleted then ("", "Deleted", COLOR_RED) else ("", "Created", COLOR_GREEN)
  let refType ← refTypeJ.asStr
  pure
    { title := eac.1 ++ " " ++ pyCapitalize refType ++ " " ++ eac.2.1
      description := some ("**`" ++ pyStr refJ ++ "`**")
      color := eac.2.2
      url := none
      fields := [⟨"By", pyStr sender, true⟩]
      footer := none }

/-- `handle_push_event` (`webhook_server.py` lines 133-149).  The trailing
`p.index "ref"` is the `payload['ref']` lookup inside the `logger.info`
f-string. -/
def handle_push_event (p : Json) : Except PyErr (Option Embed) := do
  let commitsV ← p.pyGet "commits" Json.null
  if commitsV.truthy = false then
    pure none
  else do
    let embed ← format_commit_notification p
    let _ ← p.index "ref"
    pure (some embed)

/-- `handle_pull_request_event` (`webhook_server.py` lines 152-170). -/
def handle_pull_request_event (p : Json) : Except PyErr (Option Embed) := do
  let action ← p.index "action"
  if (action.isStrEq "opened" || action.isStrEq "closed" || action.isStrEq "reopened") = false then
    pure none
  else do
    let embed ← format_pull_request_notification p
    pure (some embed)

/-- `handle_review_event` (`webhook_server.py` lines 173-191). -/
def handle_review_event (p : Json) : Except PyErr (Option Embed) := do
  let action ← p.index "action"
  if action.isStrEq "submitted" = false then
    pure none
  else do
    let embed ← format_review_notification p
    pure (some embed)

/-- `handle_review_comment_event` (`webhook_server.py` lines 194-218): reads
`payload['action']` and then returns `None` on both branches (individual review
comments are deliberately skipped). -/
def handle_review_comment_event (p : Json) : Except PyErr (Option Embed) := do
  let action ← p.index "action"
  if action.isStrEq "created" = false then
    pure none
  else
    pure none

/-- `handle_issue_event` (`webhook_server.py` lines 221-239). -/
def handle_issue_event (p : Json) : Except PyErr (Option Embed) := do
  let action ← p.index "action"
  if (action.isStrEq "opened" || action.isStrEq "closed" || action.isStrEq "reopened") = false then
    pure none
  else do
    let embed ← format_issue_notification p
    pure (some embed)

/-- `handle_create_event` (`webhook_server.py` lines 242-260). -/
def handle_create_event (p : Json) : Except PyErr (Option Embed) := do
  let refType ← p.pyGet "ref_type" Json.null
  if refType.isStrEq "branch" = false then
    pure none
  else do
    let embed ← format_branch_notification p false
    pure (some embed)

/-- `handle_delete_event` (`webhook_server.py` lines 263-281). -/
def handle_delete_event (p : Json) : Except PyErr (Option Embed) := do
  let refType ← p.pyGet "ref_type" Json.null
  if refType.isStrEq "branch" = false then
    pure none
  else do
    let embed ← format_branch_notification p true
    pure (some embed)

/-- The `if/elif` dispatch on the `X-GitHub-Event` value inside the `try`
block of `handle_webhook` (`webhook_server.py` lines 92-117). -/
def processEvent (eventType : String) (p : Json) : Except PyErr (Option Embed) :=
  if eventType = "push" then handle_push_event p
  else if eventType = "pull_request" then handle_pull_request_event p
  else if eventType = "pull_request_review" then handle_review_event p
  else if eventType = "pull_request_review_comment" then handle_review_comment_event p
  else if eventType = "issues" then handle_issue_event p
  else if eventType = "create" then handle_create_event p
  else if eventType = "delete" then handle_delete_event p
  else Except.ok none

/-- An inbound `POST /webhook` request: raw byte body, the two headers
(`none` when absent) and the parse result of `request.json`
(`none` when no JSON payload is present). -/
structure WebRequest where
  body : List Nat
  signature : Option String
  eventType : Option String
  payload : Option Json

/-- A Flask response: status code, `jsonify`-ed body, and the embed handed to
`discord_bot.send_notification` (if any). -/
structure HttpResponse where
  code : Nat
  body : Json
  notification : Option Embed

/-- `handle_webhook` (`webhook_server.py` lines 63-130): verify the signature,
check the `X-GitHub-Event` header, check the payload, dispatch, and map an
uncaught exception from processing to the 500 response. -/
def handle_webhook (hmacHex : String → List Nat → String) (secret : String)
    (req : WebRequest) : HttpResponse :=
  if verify_signature hmacHex secret req.body req.signature = false then
    ⟨401, Json.obj [("error", Json.str "Invalid signature")], none⟩
  else
    match req.eventType with
    | none => ⟨400, Json.obj [("error", Json.str "No event type")], none⟩
    | some et =>
      if et = "" then ⟨400, Json.obj [("error", Json.str "No event type")], none⟩
      else
        match req.payload with
        | none => ⟨400, Json.obj [("error", Json.str "No payload")], none⟩
        | some p =>
          if p.truthy = false then ⟨400, Json.obj [("error", Json.str "No payload")], none⟩
          else
            match processEvent et p with
            | Except.ok embed => ⟨200, Json.obj [("status", Json.str "success")], embed⟩
            | Except.error _ => ⟨500, Json.obj [("error", Json.str "Internal server error")], none⟩

/-- One entry of the list `GitHubAPI.get_open_pull_requests` builds
(`src/utils/github_api.py` lines 31-68); `reviewers` is the dict of reviewer
login to review state. -/
structure PRItem where
  number : Int
  title : String
  author : String
  branch : String
  url : String
  age : String
  reviewers : List (String × String)
  state : String
deriving Repr, DecidableEq

/-- Outcome of the upstream PyGithub call inside a `GitHubAPI` method. -/
inductive Upstream (α : Type) where
  | ok (val : α)
  | githubExc
  | otherExc

/-- `GitHubAPI.get_open_pull_requests` (`github_api.py` lines 31-72): a
`GithubException` is caught and turned into an empty list; any other
exception propagates. -/
def get_open_pull_requests (upstream : Upstream (List PRItem)) :
    Except PyErr (List PRItem) :=
  match upstream with
  | .ok prs => Except.ok prs
  | .githubExc => Except.ok []
  | .otherExc => Except.error PyErr.exn

/-- `MessageFormatter.format_pr_list` (`formatters.py` lines 251-309).  The
emoji literals after each reviewer name are empty strings in the source, so
the three review-state branches all append `reviewer ++ " "`. -/
def format_pr_list (prs : List PRItem) : Embed :=
  match prs with
  | [] => ⟨"Open Pull Requests", some "No open pull requests found.", COLOR_BLUE, none, [], none⟩
  | _ =>
    let fields := (prs.take 10).map (fun pr =>
      let reviewersText :=
        if pr.reviewers.isEmpty then ""
        else "\nReviewers: " ++ String.intercalate ", " (pr.reviewers.map (fun rs => rs.1 ++ " "))
      (⟨"PR #" ++ toString pr.number ++ ": " ++ pr.title.take 50,
        "Author: " ++ pr.author ++ " | Age: " ++ pr.age ++ "\nBranch: `" ++ pr.branch ++ "`"
          ++ reviewersText,
        false⟩ : EmbedField))
    ⟨"Open Pull Requests (" ++ toString prs.length ++ ")", none, COLOR_BLUE, none, fields,
     if prs.length > 10 then some ("Showing 10 of " ++ toString prs.length ++ " pull requests")
     else none⟩

/-- What the invoking user receives from a slash command: a followup message
with optional text content, optional embed, and the ephemeral flag. -/
structure SentMessage where
  content : Option String
  embed : Option Embed
  ephemeral : Bool
deriving Repr, DecidableEq

/-- The `/prs` command `list_prs` (`src/bot.py` lines 90-110): on any exception
escaping the body, the generic apologetic ephemeral message is sent. -/
def list_prs (upstream : Upstream (List PRItem)) : SentMessage :=
  match get_open_pull_requests upstream with
  | Except.ok prs => ⟨none, some (format_pr_list prs), false⟩
  | Except.error _ =>
    ⟨some "An error occurred while fetching pull requests. Please try again later.", none, true⟩

/-! ### Lemmas about the Python string helpers -/

theorem pySplit_sep_free (sep : Char) (xs : List Char) (h : sep ∉ xs) :
    pySplit sep xs = [xs] := by
  induction xs with
  | nil => rfl
  | cons c t ih =>
    have hcs : c ≠ sep := fun he => h (he ▸ List.mem_cons_self c t)
    have ht : sep ∉ t := fun hm => h (List.mem_cons_of_mem c hm)
    simp [pySplit, hcs, ih ht]

theorem pySplit_append (sep : Char) (xs ys : List Char) (h : sep ∉ xs) :
    pySplit sep (xs ++ sep :: ys) = xs :: pySplit sep ys := by
  induction xs with
  | nil => simp [pySplit]
  | cons c t ih =>
    have hcs : c ≠ sep := fun he => h (he ▸ List.mem_cons_self c t)
    have ht : sep ∉ t := fun hm => h (List.mem_cons_of_mem c hm)
    simp [pySplit, hcs, ih ht]

theorem isPrefixOf_append_self (l r : List Char) : l.isPrefixOf (l ++ r) = true := by
  simp [List.isPrefixOf_iff_prefix]

/-- A string whose characters avoid `'='`: the shape of a hex digest as far as
the signature parsing is concerned. -/
def eqFree (s : String) : Prop := '=' ∉ s.data

instance (s : String) : Decidable (eqFree s) := by
  unfold eqFree; infer_instance

theorem append_data (s t : String) : (s ++ t).data = s.data ++ t.data := rfl

theorem ne_empty_of_data_ne_nil (s : String) (h : s.data ≠ []) : s ≠ "" := by
  intro he
  subst he
  exact h rfl

/-- Parsing step shared by the verification theorems: on a well-formed
`sha256=`-tagged signature the extracted hash is exactly the digest part. -/
theorem verify_signature_tagged (hmacHex : String → List Nat → String) (secret : String)
    (body : List Nat) (h : String) (hfree : eqFree h) :
    verify_signature hmacHex secret body (some ("sha256=" ++ h)) =
      decide ((hmacHex secret body).data = h.data) := by
  have hdata : ("sha256=" ++ h).data = "sha256".data ++ '=' :: h.data := rfl
  have hne : ("sha256=" ++ h) ≠ "" := by
    apply ne_empty_of_data_ne_nil
    rw [hdata]
    simp
  have hsch : sigScheme.isPrefixOf ("sha256=" ++ h).data = true := by
    have : ("sha256=" ++ h).data = sigScheme ++ h.data := rfl
    rw [this]
    exact isPrefixOf_append_self _ _
  have hsplit : pySplit '=' ('s' :: 'h' :: 'a' :: '2' :: '5' :: '6' :: '=' :: h.data)
      = ["sha256".data, h.data] := by
    have hform : ('s' :: 'h' :: 'a' :: '2' :: '5' :: '6' :: '=' :: h.data)
        = "sha256".data ++ '=' :: h.data := rfl
    rw [hform, pySplit_append '=' _ _ (by decide), pySplit_sep_free '=' _ hfree]
  simp only [verify_signature, if_neg hne, hsch]
  simp [hsplit]

/-- Claim C1: with a collision-free digest function (the idealized reading of
HMAC-SHA256; `hashlib` is external to the repository), `verify_signature`
accepts the signature computed over the same body and rejects a signature
computed over any different body. -/
theorem verify_signature_round_trip (hmacHex : String → List Nat → String) (secret : String)
    (hinj : Function.Injective (hmacHex secret))
    (hfree : ∀ b : List Nat, eqFree (hmacHex secret b))
    (B B1 B2 : List Nat) (hne : B1 ≠ B2) :
    verify_signature hmacHex secret B (some ("sha256=" ++ hmacHex secret B)) = true ∧
    verify_signature hmacHex secret B1 (some ("sha256=" ++ hmacHex secret B2)) = false := by
  constructor
  · rw [verify_signature_tagged hmacHex secret B _ (hfree B)]
    simp
  · rw [verify_signature_tagged hmacHex secret B1 _ (hfree B2)]
    have hd : (hmacHex secret B1).data ≠ (hmacHex secret B2).data := by
      intro he
      exact hinj (String.ext he) |> hne
    simp [hd]

/-- Claim C5: an absent, empty, or wrongly tagged signature is rejected, and
the result does not depend on the digest function at all (no hash is
computed before the early return). -/
theorem bad_scheme_rejected_without_hash (secret : String) (body : List Nat)
    (sig : Option String)
    (h : sig = none ∨ sig = some "" ∨
         ∃ s, sig = some s ∧ sigScheme.isPrefixOf s.data = false) :
    ∀ hmacHex : String → List Nat → String,
      verify_signature hmacHex secret body sig = false := by
  intro f
  rcases h with h | h | ⟨s, hs, hbad⟩
  · rw [h]; rfl
  · rw [h]; rfl
  · rw [hs]
    by_cases he : s = ""
    · simp [verify_signature, he]
    · simp [verify_signature, he, hbad]

/-- Claim C8: `verify_signature` keeps only the part of the header between the
first and the second `'='`; a correct digest followed by `'='` and arbitrary
trailing content is still accepted. -/
theorem trailing_equals_accepted (hmacHex : String → List Nat → String) (secret : String)
    (body : List Nat) (suffix : String)
    (hfree : eqFree (hmacHex secret body)) :
    verify_signature hmacHex secret body
      (some ("sha256=" ++ hmacHex secret body ++ "=" ++ suffix)) = true := by
  set h := hmacHex secret body with hh
  have hdata : ("sha256=" ++ h ++ "=" ++ suffix).data
      = "sha256".data ++ '=' :: (h.data ++ '=' :: suffix.data) := by
    show ("sha256=".data ++ h.data ++ "=".data ++ suffix.data)
        = "sha256".data ++ '=' :: (h.data ++ '=' :: suffix.data)
    simp
  have hne : ("sha256=" ++ h ++ "=" ++ suffix) ≠ "" := by
    apply ne_empty_of_data_ne_nil
    rw [hdata]
    simp
  have hsch : sigScheme.isPrefixOf ("sha256=" ++ h ++ "=" ++ suffix).data = true := by
    have h2 : ("sha256=" ++ h ++ "=" ++ suffix).data
        = sigScheme ++ (h.data ++ '=' :: suffix.data) := by
      rw [hdata]; rfl
    rw [h2]
    exact isPrefixOf_append_self _ _
  have hsplit : pySplit '=' ('s' :: 'h' :: 'a' :: '2' :: '5' :: '6' :: '='
        :: (h.data ++ '=' :: suffix.data))
      = "sha256".data :: h.data :: pySplit '=' suffix.data := by
    have hform : ('s' :: 'h' :: 'a' :: '2' :: '5' :: '6' :: '=' :: (h.data ++ '=' :: suffix.data))
        = "sha256".data ++ '=' :: (h.data ++ '=' :: suffix.data) := rfl
    rw [hform, pySplit_append '=' _ _ (by decide), pySplit_append '=' _ _ hfree]
  simp only [verify_signature, if_neg hne, hsch]
  simp [hsplit]

/-! ### A concrete collision-free digest function for the witnesses -/

/-- Unary encoding of one byte. -/
def encNat (n : Nat) : List Char := List.replicate n 'a' ++ ['b']

/-- Unary encoding of a byte list; injective and `'='`-free, so it can stand
in for the idealized digest in witnesses. -/
def encList : List Nat → List Char
  | [] => []
  | n :: t => encNat n ++ encList t

/-- A concrete digest function satisfying the hypotheses of
`verify_signature_round_trip`. -/
def unaryEnc : String → List Nat → String := fun _ b => String.mk (encList b)

theorem encNat_parts (n m : Nat) (r1 r2 : List Char)
    (h : List.replicate n 'a' ++ 'b' :: r1 = List.replicate m 'a' ++ 'b' :: r2) :
    n = m ∧ r1 = r2 := by
  induction n generalizing m with
  | zero =>
    cases m with
    | zero => simpa using h
    | succ m => simp [List.replicate_succ] at h
  | succ n ih =>
    cases m with
    | zero => simp [List.replicate_succ] at h
    | succ m =>
      simp only [List.replicate_succ, List.cons_append, List.cons.injEq, true_and] at h
      obtain ⟨h1, h2⟩ := ih m h
      exact ⟨by omega, h2⟩

theorem encList_inj (l1 l2 : List Nat) (h : encList l1 = encList l2) : l1 = l2 := by
  induction l1 generalizing l2 with
  | nil =>
    cases l2 with
    | nil => rfl
    | cons n t =>
      exfalso
      have : ([] : List Char) = encNat n ++ encList t := h
      have hlen := congrArg List.length this
      simp [encNat] at hlen
      omega
  | cons n t ih =>
    cases l2 with
    | nil =>
      exfalso
      have : encNat n ++ encList t = ([] : List Char) := h
      have hlen := congrArg List.length this
      simp [encNat] at hlen
    | cons m s =>
      have h' : List.replicate n 'a' ++ 'b' :: encList t
          = List.replicate m 'a' ++ 'b' :: encList s := by
        simpa [encList, encNat] using h
      obtain ⟨h1, h2⟩ := encNat_parts n m _ _ h'
      exact by rw [h1, ih s h2]

theorem unaryEnc_injective (secret : String) : Function.Injective (unaryEnc secret) := by
  intro a b h
  exact encList_inj a b (congrArg String.data h)

theorem encList_mem (c : Char) (l : List Nat) (h : c ∈ encList l) : c = 'a' ∨ c = 'b' := by
  induction l with
  | nil => simp [encList] at h
  | cons n t ih =>
    simp only [encList, encNat, List.append_assoc, List.mem_append, List.mem_replicate,
      List.mem_singleton] at h
    rcases h with h | h | h
    · exact Or.inl h.2
    · exact Or.inr h
    · exact ih h

theorem unaryEnc_eqFree (secret : String) (b : List Nat) : eqFree (unaryEnc secret b) := by
  intro hm
  have : ('=' : Char) ∈ encList b := by simpa [unaryEnc] using hm
  rcases encList_mem '=' b this with h | h <;> exact absurd h (by decide)

/-- Witness for C1 at the concrete digest `unaryEnc`, secret `"k"`, bodies
`[0]` and `[1]`. -/
theorem verify_signature_round_trip_witness :
    verify_signature unaryEnc "k" [0] (some ("sha256=" ++ unaryEnc "k" [0])) = true ∧
    verify_signature unaryEnc "k" [0] (some ("sha256=" ++ unaryEnc "k" [1])) = false :=
  verify_signature_round_trip unaryEnc "k" (unaryEnc_injective "k") (unaryEnc_eqFree "k")
    [0] [0] [1] (by decide)

/-- Witness for C5 at a concretely malformed header. -/
theorem bad_scheme_rejected_without_hash_witness :
    verify_signature unaryEnc "k" [1, 2] (some "md5=ab") = false :=
  bad_scheme_rejected_without_hash "k" [1, 2] (some "md5=ab")
    (Or.inr (Or.inr ⟨"md5=ab", rfl, by decide⟩)) unaryEnc

/-- Witness for C8 at a concrete body and trailing content. -/
theorem trailing_equals_accepted_witness :
    verify_signature unaryEnc "k" [3]
      (some ("sha256=" ++ unaryEnc "k" [3] ++ "=" ++ "junk=more")) = true :=
  trailing_equals_accepted unaryEnc "k" [3] "junk=more" (unaryEnc_eqFree "k" [3])

/-! ### Payload well-formedness

Boolean checks that the fields a handler and its formatter dereference are
present (with a string where the code calls a string method on the value).
They require nothing beyond what the corresponding code path touches. -/

/-- The key is present in the dict. -/
def hasKeyB (j : Json) (k : String) : Bool := (j.lookupKey k).isSome

/-- The key is present and its value is a string. -/
def strAtB (j : Json) (k : String) : Bool :=
  match j.lookupKey k with
  | some (.str _) => true
  | _ => false

/-- `j[k1][k2]` dereferences without an exception. -/
def hasPath2B (j : Json) (k1 k2 : String) : Bool :=
  match j.lookupKey k1 with
  | some v => hasKeyB v k2
  | none => false

/-- Fields `format_commit_notification` dereferences on the first commit. -/
def commitWF (c : Json) : Bool :=
  strAtB c "message" && hasPath2B c "author" "name" && hasKeyB c "url"

/-- Fields the `push` path dereferences: nothing beyond a dict when the
commit list is falsy, the full formatter footprint otherwise. -/
def pushWF (p : Json) : Bool :=
  p.isObj &&
  (match p.lookupKey "commits" with
   | some v =>
     if v.truthy then
       match v with
       | .arr (c :: _) =>
         strAtB p "ref" && hasPath2B p "pusher" "name" &&
         hasPath2B p "repository" "name" && hasKeyB p "compare" && commitWF c
       | _ => false
     else true
   | none => true)

/-- `payload['action']` compared against a list of handled action strings. -/
def actionIn (p : Json) (l : List String) : Bool :=
  match p.lookupKey "action" with
  | some a => l.any (fun s => a.isStrEq s)
  | none => false

/-- Fields the `pull_request` path dereferences. -/
def prWF (p : Json) : Bool :=
  p.isObj && hasKeyB p "action" &&
  (if actionIn p ["opened", "closed", "reopened"] then
     match p.lookupKey "action", p.lookupKey "pull_request" with
     | some (.str _), some pr =>
       hasKeyB pr "number" && hasKeyB pr "title" && hasPath2B pr "user" "login" &&
       hasPath2B pr "head" "ref" && hasPath2B pr "base" "ref" && hasKeyB pr "html_url" &&
       (if ((pr.lookupKey "merged").getD (Json.bool false)).truthy then
          match pr.lookupKey "merged_by" with
          | some mb => if mb.truthy then hasKeyB mb "login" else true
          | none => true
        else true)
     | _, _ => false
   else true)

/-- Fields the `pull_request_review` path dereferences. -/
def reviewWF (p : Json) : Bool :=
  p.isObj && hasKeyB p "action" &&
  (if actionIn p ["submitted"] then
     match p.lookupKey "review", p.lookupKey "pull_request" with
     | some rv, some pr =>
       hasKeyB pr "number" && hasKeyB pr "title" && hasPath2B rv "user" "login" &&
       hasKeyB rv "state" &&
       (match rv.lookupKey "body" with
        | some b => !b.truthy || (match b with | .str _ => true | _ => false)
        | none => false) &&
       hasKeyB rv "html_url"
     | _, _ => false
   else true)

/-- Fields the `issues` path dereferences. -/
def issueWF (p : Json) : Bool :=
  p.isObj && hasKeyB p "action" &&
  (if actionIn p ["opened", "closed", "reopened"] then
     match p.lookupKey "action", p.lookupKey "issue" with
     | some (.str _), some iss =>
       hasKeyB iss "number" && hasKeyB iss "title" && hasPath2B iss "user" "login" &&
       hasKeyB iss "html_url"
     | _, _ => false
   else true)

/-- Fields the `create`/`delete` paths dereference. -/
def branchWF (p : Json) : Bool :=
  p.isObj &&
  (if ((p.lookupKey "ref_type").getD Json.null).isStrEq "branch" then
     hasPath2B p "sender" "login"
   else true)

/-- Per-event-type well-formedness; trivially true for unlisted event types,
whose payload the server never touches. -/
def wellFormedFor (eventType : String) (p : Json) : Bool :=
  if eventType = "push" then pushWF p
  else if eventType = "pull_request" then prWF p
  else if eventType = "pull_request_review" then reviewWF p
  else if eventType = "pull_request_review_comment" then p.isObj && hasKeyB p "action"
  else if eventType = "issues" then issueWF p
  else if eventType = "create" then branchWF p
  else if eventType = "delete" then branchWF p
  else true

/-- The handled (event type, payload) pairs of the spec's section 4.2 table,
written from the table. -/
def handledPairB (eventType : String) (p : Json) : Bool :=
  if eventType = "push" then
    match p.lookupKey "commits" with
    | some (.arr (_ :: _)) => true
    | _ => false
  else if eventType = "pull_request" then actionIn p ["opened", "closed", "reopened"]
  else if eventType = "pull_request_review" then actionIn p ["submitted"]
  else if eventType = "issues" then actionIn p ["opened", "closed", "reopened"]
  else if eventType = "create" then ((p.lookupKey "ref_type").getD Json.null).isStrEq "branch"
  else if eventType = "delete" then ((p.lookupKey "ref_type").getD Json.null).isStrEq "branch"
  else false

/-- The processing outcome succeeded (no Python exception). -/
def isOkB {α : Type} (r : Except PyErr α) : Bool :=
  match r with
  | Except.ok _ => true
  | Except.error _ => false

/-- The notification an outcome carries, if any. -/
def notifOf (r : Except PyErr (Option Embed)) : Option Embed :=
  match r with
  | Except.ok e => e
  | Except.error _ => none

/-- Whether an outcome produced a notification. -/
def resultNotif (r : Except PyErr (Option Embed)) : Bool := (notifOf r).isSome

/-! ### Extraction lemmas for the well-formedness checks -/

theorem exceptBind_ok {α β : Type} (a : α) (f : α → Except PyErr β) :
    (Except.ok a >>= f : Except PyErr β) = f a := rfl

theorem isObj_of_lookupKey (j : Json) (k : String) (v : Json)
    (h : j.lookupKey k = some v) : j.isObj = true := by
  cases j <;> simp [Json.lookupKey, Json.isObj] at h ⊢

theorem index_of_lookupKey (j : Json) (k : String) (v : Json)
    (h : j.lookupKey k = some v) : j.index k = Except.ok v := by
  rw [Json.index, if_pos (isObj_of_lookupKey j k v h), h]

theorem hasKeyB_exists (j : Json) (k : String) (h : hasKeyB j k = true) :
    ∃ v, j.lookupKey k = some v := by
  rw [hasKeyB] at h
  exact Option.isSome_iff_exists.mp h

theorem strAtB_exists (j : Json) (k : String) (h : strAtB j k = true) :
    ∃ s, j.lookupKey k = some (Json.str s) := by
  rw [strAtB] at h
  rcases hl : j.lookupKey k with _ | v
  · rw [hl] at h; exact absurd h (by simp)
  · rw [hl] at h
    cases v <;> simp at h
    exact ⟨_, rfl⟩

theorem hasPath2B_exists (j : Json) (k1 k2 : String) (h : hasPath2B j k1 k2 = true) :
    ∃ v w, j.lookupKey k1 = some v ∧ v.lookupKey k2 = some w := by
  rw [hasPath2B] at h
  rcases hl : j.lookupKey k1 with _ | v
  · rw [hl] at h; exact absurd h (by simp)
  · rw [hl] at h
    obtain ⟨w, hw⟩ := hasKeyB_exists v k2 h
    exact ⟨v, w, rfl, hw⟩

theorem pyGet_of_isObj (j : Json) (k : String) (dflt : Json) (h : j.isObj = true) :
    j.pyGet k dflt = Except.ok ((j.lookupKey k).getD dflt) := by
  rw [Json.pyGet, if_pos h]

/-! ### The handlers succeed on well-formed payloads -/

theorem format_commit_ok (p : Json) (refS : String) (c : Json) (rest : List Json)
    (href : p.lookupKey "ref" = some (Json.str refS))
    (hcm : p.lookupKey "commits" = some (Json.arr (c :: rest)))
    (hpu : hasPath2B p "pusher" "name" = true)
    (hrep : hasPath2B p "repository" "name" = true)
    (hcmp : hasKeyB p "compare" = true)
    (hc : commitWF c = true) :
    isOkB (format_commit_notification p) = true := by
  obtain ⟨pu, pn, hpu1, hpu2⟩ := hasPath2B_exists _ _ _ hpu
  obtain ⟨rp, rn, hrp1, hrp2⟩ := hasPath2B_exists _ _ _ hrep
  obtain ⟨cv, hcv⟩ := hasKeyB_exists _ _ hcmp
  rw [commitWF, Bool.and_assoc, Bool.and_eq_true] at hc
  obtain ⟨hm, hc2⟩ := hc
  rw [Bool.and_eq_true] at hc2
  obtain ⟨ha, hu⟩ := hc2
  obtain ⟨msg, hmsg⟩ := strAtB_exists _ _ hm
  obtain ⟨au, an, hau1, hau2⟩ := hasPath2B_exists _ _ _ ha
  obtain ⟨uv, huv⟩ := hasKeyB_exists _ _ hu
  simp only [format_commit_notification,
    index_of_lookupKey _ _ _ href, index_of_lookupKey _ _ _ hcm,
    index_of_lookupKey _ _ _ hpu1, index_of_lookupKey _ _ _ hpu2,
    index_of_lookupKey _ _ _ hrp1, index_of_lookupKey _ _ _ hrp2,
    index_of_lookupKey _ _ _ hcv, index_of_lookupKey _ _ _ hmsg,
    index_of_lookupKey _ _ _ hau1, index_of_lookupKey _ _ _ hau2,
    index_of_lookupKey _ _ _ huv,
    Json.asStr, Json.asArr, exceptBind_ok]
  rfl

theorem handle_push_spec (p : Json) (h : pushWF p = true) :
    isOkB (handle_push_event p) = true ∧
    resultNotif (handle_push_event p) = handledPairB "push" p := by
  have hobj : p.isObj = true := by
    rw [pushWF, Bool.and_eq_true] at h
    exact h.1
  have hpb : handledPairB "push" p =
      (match p.lookupKey "commits" with
       | some (.arr (_ :: _)) => true
       | _ => false) := by
    rw [handledPairB, if_pos rfl]
  rcases hcl : p.lookupKey "commits" with _ | v
  · have hpush : handle_push_event p = Except.ok none := by
      simp only [handle_push_event, pyGet_of_isObj p "commits" Json.null hobj, hcl,
        exceptBind_ok, Option.getD_none]
      rfl
    rw [hpush, hpb, hcl]
    exact ⟨rfl, rfl⟩
  · simp only [pushWF, hcl, Bool.and_eq_true] at h
    by_cases htr : v.truthy = true
    · rw [if_pos htr] at h
      match v, htr, h with
      | Json.arr (c :: rest), htr, h =>
        have hc : (strAtB p "ref" && hasPath2B p "pusher" "name" &&
            hasPath2B p "repository" "name" && hasKeyB p "compare" && commitWF c) = true :=
          h.2
        rw [Bool.and_eq_true, Bool.and_eq_true, Bool.and_eq_true, Bool.and_eq_true] at hc
        obtain ⟨⟨⟨⟨href, hpu⟩, hrep⟩, hcmp⟩, hcwf⟩ := hc
        obtain ⟨refS, hrefS⟩ := strAtB_exists _ _ href
        have hok := format_commit_ok p refS c rest hrefS hcl hpu hrep hcmp hcwf
        rcases hfmt : format_commit_notification p with err | e
        · rw [hfmt] at hok
          exact absurd hok (by simp [isOkB])
        · have hpush : handle_push_event p = Except.ok (some e) := by
            simp only [handle_push_event, pyGet_of_isObj p "commits" Json.null hobj, hcl,
              exceptBind_ok, Option.getD_some, htr, hfmt,
              index_of_lookupKey _ _ _ hrefS]
            rfl
          rw [hpush, hpb, hcl]
          exact ⟨rfl, rfl⟩
    · have hfalse : v.truthy = false := by
        cases hv : v.truthy
        · rfl
        · exact absurd hv htr
      have hpush : handle_push_event p = Except.ok none := by
        simp only [handle_push_event, pyGet_of_isObj p "commits" Json.null hobj, hcl,
          exceptBind_ok, Option.getD_some, hfalse]
        rfl
      rw [hpush, hpb, hcl]
      refine ⟨rfl, ?_⟩
      cases v with
      | null => rfl
      | bool b =>
        cases b with
        | false => rfl
        | true => simp [Json.truthy] at hfalse
      | str s => rfl
      | num n => rfl
      | arr l =>
        cases l with
        | nil => rfl
        | cons x t => simp [Json.truthy] at hfalse
      | obj fs => rfl

theorem isStrEq_eq (j : Json) (s : String) (h : j.isStrEq s = true) : j = Json.str s := by
  cases j <;> simp [Json.isStrEq] at h
  subst h
  rfl

theorem actionIn_expand (p : Json) (av : Json) (hav : p.lookupKey "action" = some av) :
    actionIn p ["opened", "closed", "reopened"] =
      (av.isStrEq "opened" || av.isStrEq "closed" || av.isStrEq "reopened") := by
  simp [actionIn, hav]
  rw [Bool.or_assoc]

theorem format_pr_ok (p : Json) (a : String) (pr : Json)
    (hav : p.lookupKey "action" = some (Json.str a))
    (hprl : p.lookupKey "pull_request" = some pr)
    (hn : hasKeyB pr "number" = true) (ht : hasKeyB pr "title" = true)
    (hu : hasPath2B pr "user" "login" = true)
    (hh : hasPath2B pr "head" "ref" = true)
    (hb : hasPath2B pr "base" "ref" = true)
    (hurl : hasKeyB pr "html_url" = true)
    (hmb : (if ((pr.lookupKey "merged").getD (Json.bool false)).truthy then
              match pr.lookupKey "merged_by" with
              | some mb => if mb.truthy then hasKeyB mb "login" else true
              | none => true
            else true) = true) :
    isOkB (format_pull_request_notification p) = true := by
  obtain ⟨nv, hnv⟩ := hasKeyB_exists _ _ hn
  obtain ⟨tv, htv⟩ := hasKeyB_exists _ _ ht
  obtain ⟨uo, ul, hu1, hu2⟩ := hasPath2B_exists _ _ _ hu
  obtain ⟨hdo, hdr, hh1, hh2⟩ := hasPath2B_exists _ _ _ hh
  obtain ⟨bso, bsr, hb1, hb2⟩ := hasPath2B_exists _ _ _ hb
  obtain ⟨uv, huv⟩ := hasKeyB_exists _ _ hurl
  have hprobj : pr.isObj = true := isObj_of_lookupKey _ _ _ hnv
  simp only [format_pull_request_notification,
    index_of_lookupKey _ _ _ hav, index_of_lookupKey _ _ _ hprl,
    index_of_lookupKey _ _ _ hnv, index_of_lookupKey _ _ _ htv,
    index_of_lookupKey _ _ _ hu1, index_of_lookupKey _ _ _ hu2,
    index_of_lookupKey _ _ _ hh1, index_of_lookupKey _ _ _ hh2,
    index_of_lookupKey _ _ _ hb1, index_of_lookupKey _ _ _ hb2,
    index_of_lookupKey _ _ _ huv,
    pyGet_of_isObj pr "merged" (Json.bool false) hprobj,
    Json.asStr, exceptBind_ok]
  by_cases hcond : ((pr.lookupKey "merged").getD (Json.bool false)).truthy = true ∧
      ((pr.lookupKey "merged_by").getD Json.null).truthy = true
  · rw [if_pos hcond.1] at hmb
    rcases hmbl : pr.lookupKey "merged_by" with _ | mb
    · exfalso
      have := hcond.2
      rw [hmbl] at this
      exact absurd this (by simp [Json.truthy])
    · rw [hmbl] at hcond
      have hmbt : mb.truthy = true := by
        have h2 := hcond.2
        rwa [Option.getD_some] at h2
      simp only [hmbl] at hmb
      rw [if_pos hmbt] at hmb
      obtain ⟨lv, hlv⟩ := hasKeyB_exists _ _ hmb
      rw [if_pos hcond]
      simp only [index_of_lookupKey _ _ _ hmbl, index_of_lookupKey _ _ _ hlv, exceptBind_ok]
      rfl
  · rw [if_neg hcond]
    rfl

theorem handle_pr_spec (p : Json) (h : prWF p = true) :
    isOkB (handle_pull_request_event p) = true ∧
    resultNotif (handle_pull_request_event p) = handledPairB "pull_request" p := by
  rw [prWF, Bool.and_eq_true, Bool.and_eq_true] at h
  obtain ⟨⟨hobj, hact⟩, hcond⟩ := h
  obtain ⟨av, hav⟩ := hasKeyB_exists p "action" hact
  have hpb : handledPairB "pull_request" p = actionIn p ["opened", "closed", "reopened"] := rfl
  have hbridge := actionIn_expand p av hav
  by_cases hin : actionIn p ["opened", "closed", "reopened"] = true
  · have hstr : ∃ a, av = Json.str a := by
      rw [hbridge] at hin
      rcases Bool.or_eq_true .. |>.mp hin with h1 | h1
      · rcases Bool.or_eq_true .. |>.mp h1 with h2 | h2
        · exact ⟨"opened", isStrEq_eq _ _ h2⟩
        · exact ⟨"closed", isStrEq_eq _ _ h2⟩
      · exact ⟨"reopened", isStrEq_eq _ _ h1⟩
    obtain ⟨a, ha⟩ := hstr
    subst ha
    rw [if_pos hin] at hcond
    rcases hprl : p.lookupKey "pull_request" with _ | pr
    · exfalso
      simp only [hav, hprl] at hcond
      exact Bool.false_ne_true hcond
    · simp only [hav, hprl, Bool.and_eq_true] at hcond
      obtain ⟨⟨⟨⟨⟨⟨hn, ht⟩, hu⟩, hh⟩, hb⟩, hurl⟩, hmbif⟩ := hcond
      have hok := format_pr_ok p a pr hav hprl hn ht hu hh hb hurl hmbif
      have hcondtrue : ((Json.str a).isStrEq "opened" || (Json.str a).isStrEq "closed" ||
          (Json.str a).isStrEq "reopened") = true := hbridge ▸ hin
      rcases hfmt : format_pull_request_notification p with err | e
      · rw [hfmt] at hok
        exact absurd hok (by simp [isOkB])
      · have hrun : handle_pull_request_event p = Except.ok (some e) := by
          simp only [handle_pull_request_event, index_of_lookupKey _ _ _ hav,
            exceptBind_ok, hcondtrue, hfmt]
          rfl
        rw [hrun, hpb, hin]
        exact ⟨rfl, rfl⟩
  · have hfalse : actionIn p ["opened", "closed", "reopened"] = false := by
      cases hx : actionIn p ["opened", "closed", "reopened"]
      · rfl
      · exact absurd hx hin
    have hcf : (av.isStrEq "opened" || av.isStrEq "closed" || av.isStrEq "reopened") = false :=
      hbridge ▸ hfalse
    have hrun : handle_pull_request_event p = Except.ok none := by
      simp only [handle_pull_request_event, index_of_lookupKey _ _ _ hav,
        exceptBind_ok, hcf]
      rfl
    rw [hrun, hpb, hfalse]
    exact ⟨rfl, rfl⟩

theorem format_review_ok (p : Json) (rv pr b : Json)
    (hrv : p.lookupKey "review" = some rv)
    (hprl : p.lookupKey "pull_request" = some pr)
    (hn : hasKeyB pr "number" = true) (ht : hasKeyB pr "title" = true)
    (hu : hasPath2B rv "user" "login" = true)
    (hst : hasKeyB rv "state" = true)
    (hbl : rv.lookupKey "body" = some b)
    (hbs : b.truthy = false ∨ ∃ s, b = Json.str s)
    (hurl : hasKeyB rv "html_url" = true) :
    isOkB (format_review_notification p) = true := by
  obtain ⟨nv, hnv⟩ := hasKeyB_exists _ _ hn
  obtain ⟨tv, htv⟩ := hasKeyB_exists _ _ ht
  obtain ⟨uo, ul, hu1, hu2⟩ := hasPath2B_exists _ _ _ hu
  obtain ⟨sv, hsv⟩ := hasKeyB_exists _ _ hst
  obtain ⟨uv, huv⟩ := hasKeyB_exists _ _ hurl
  simp only [format_review_notification,
    index_of_lookupKey _ _ _ hrv, index_of_lookupKey _ _ _ hprl,
    index_of_lookupKey _ _ _ hnv, index_of_lookupKey _ _ _ htv,
    index_of_lookupKey _ _ _ hu1, index_of_lookupKey _ _ _ hu2,
    index_of_lookupKey _ _ _ hsv, index_of_lookupKey _ _ _ hbl,
    index_of_lookupKey _ _ _ huv, exceptBind_ok]
  by_cases hbt : b.truthy = true
  · rcases hbs with hbf | ⟨s, hs⟩
    · rw [hbt] at hbf
      exact absurd hbf (by simp)
    · subst hs
      rw [if_pos hbt]
      simp only [Json.asStr, exceptBind_ok]
      rfl
  · rw [if_neg hbt]
    simp only [Json.asStr, exceptBind_ok]
    rfl

theorem handle_review_spec (p : Json) (h : reviewWF p = true) :
    isOkB (handle_review_event p) = true ∧
    resultNotif (handle_review_event p) = handledPairB "pull_request_review" p := by
  rw [reviewWF, Bool.and_eq_true, Bool.and_eq_true] at h
  obtain ⟨⟨hobj, hact⟩, hcond⟩ := h
  obtain ⟨av, hav⟩ := hasKeyB_exists p "action" hact
  have hpb : handledPairB "pull_request_review" p = actionIn p ["submitted"] := rfl
  have hbridge : actionIn p ["submitted"] = av.isStrEq "submitted" := by
    simp [actionIn, hav]
  by_cases hin : actionIn p ["submitted"] = true
  · have hstr : av = Json.str "submitted" := isStrEq_eq _ _ (hbridge ▸ hin)
    subst hstr
    rw [if_pos hin] at hcond
    rcases hrvl : p.lookupKey "review" with _ | rv
    · exfalso
      simp only [hrvl] at hcond
      exact Bool.false_ne_true hcond
    · rcases hprl : p.lookupKey "pull_request" with _ | pr
      · exfalso
        simp only [hrvl, hprl] at hcond
        exact Bool.false_ne_true hcond
      · simp only [hrvl, hprl, Bool.and_eq_true] at hcond
        obtain ⟨⟨⟨⟨⟨hn, ht⟩, hu⟩, hst⟩, hbm⟩, hurl⟩ := hcond
        rcases hbl : rv.lookupKey "body" with _ | b
        · exfalso
          simp only [hbl] at hbm
          exact Bool.false_ne_true hbm
        · simp only [hbl] at hbm
          have hbs : b.truthy = false ∨ ∃ s, b = Json.str s := by
            rcases (Bool.or_eq_true _ _).mp hbm with h1 | h1
            · exact Or.inl (by simpa using h1)
            · right
              cases b <;> simp at h1
              exact ⟨_, rfl⟩
          have hok := format_review_ok p rv pr b hrvl hprl hn ht hu hst hbl hbs hurl
          have hctrue : (Json.str "submitted").isStrEq "submitted" = true := by rfl
          rcases hfmt : format_review_notification p with err | e
          · rw [hfmt] at hok
            exact absurd hok (by simp [isOkB])
          · have hrun : handle_review_event p = Except.ok (some e) := by
              simp only [handle_review_event, index_of_lookupKey _ _ _ hav,
                exceptBind_ok, hctrue, hfmt]
              rfl
            rw [hrun, hpb, hin]
            exact ⟨rfl, rfl⟩
  · have hfalse : actionIn p ["submitted"] = false := by
      cases hx : actionIn p ["submitted"]
      · rfl
      · exact absurd hx hin
    have hcf : av.isStrEq "submitted" = false := hbridge ▸ hfalse
    have hrun : handle_review_event p = Except.ok none := by
      simp only [handle_review_event, index_of_lookupKey _ _ _ hav, exceptBind_ok, hcf]
      rfl
    rw [hrun, hpb, hfalse]
    exact ⟨rfl, rfl⟩

theorem format_issue_ok (p : Json) (a : String) (iss : Json)
    (hav : p.lookupKey "action" = some (Json.str a))
    (hisl : p.lookupKey "issue" = some iss)
    (hn : hasKeyB iss "number" = true) (ht : hasKeyB iss "title" = true)
    (hu : hasPath2B iss "user" "login" = true)
    (hurl : hasKeyB iss "html_url" = true) :
    isOkB (format_issue_notification p) = true := by
  obtain ⟨nv, hnv⟩ := hasKeyB_exists _ _ hn
  obtain ⟨tv, htv⟩ := hasKeyB_exists _ _ ht
  obtain ⟨uo, ul, hu1, hu2⟩ := hasPath2B_exists _ _ _ hu
  obtain ⟨uv, huv⟩ := hasKeyB_exists _ _ hurl
  simp only [format_issue_notification,
    index_of_lookupKey _ _ _ hav, index_of_lookupKey _ _ _ hisl,
    index_of_lookupKey _ _ _ hnv, index_of_lookupKey _ _ _ htv,
    index_of_lookupKey _ _ _ hu1, index_of_lookupKey _ _ _ hu2,
    index_of_lookupKey _ _ _ huv,
    Json.asStr, exceptBind_ok]
  rfl

theorem handle_issue_spec (p : Json) (h : issueWF p = true) :
    isOkB (handle_issue_event p) = true ∧
    resultNotif (handle_issue_event p) = handledPairB "issues" p := by
  rw [issueWF, Bool.and_eq_true, Bool.and_eq_true] at h
  obtain ⟨⟨hobj, hact⟩, hcond⟩ := h
  obtain ⟨av, hav⟩ := hasKeyB_exists p "action" hact
  have hpb : handledPairB "issues" p = actionIn p ["opened", "closed", "reopened"] := rfl
  have hbridge := actionIn_expand p av hav
  by_cases hin : actionIn p ["opened", "closed", "reopened"] = true
  · have hstr : ∃ a, av = Json.str a := by
      rw [hbridge] at hin
      rcases Bool.or_eq_true .. |>.mp hin with h1 | h1
      · rcases Bool.or_eq_true .. |>.mp h1 with h2 | h2
        · exact ⟨"opened", isStrEq_eq _ _ h2⟩
        · exact ⟨"closed", isStrEq_eq _ _ h2⟩
      · exact ⟨"reopened", isStrEq_eq _ _ h1⟩
    obtain ⟨a, ha⟩ := hstr
    subst ha
    rw [if_pos hin] at hcond
    rcases hisl : p.lookupKey "issue" with _ | iss
    · exfalso
      simp only [hav, hisl] at hcond
      exact Bool.false_ne_true hcond
    · simp only [hav, hisl, Bool.and_eq_true] at hcond
      obtain ⟨⟨⟨hn, ht⟩, hu⟩, hurl⟩ := hcond
      have hok := format_issue_ok p a iss hav hisl hn ht hu hurl
      have hcondtrue : ((Json.str a).isStrEq "opened" || (Json.str a).isStrEq "closed" ||
          (Json.str a).isStrEq "reopened") = true := hbridge ▸ hin
      rcases hfmt : format_issue_notification p with err | e
      · rw [hfmt] at hok
        exact absurd hok (by simp [isOkB])
      · have hrun : handle_issue_event p = Except.ok (some e) := by
          simp only [handle_issue_event, index_of_lookupKey _ _ _ hav,
            exceptBind_ok, hcondtrue, hfmt]
          rfl
        rw [hrun, hpb, hin]
        exact ⟨rfl, rfl⟩
  · have hfalse : actionIn p ["opened", "closed", "reopened"] = false := by
      cases hx : actionIn p ["opened", "closed", "reopened"]
      · rfl
      · exact absurd hx hin
    have hcf : (av.isStrEq "opened" || av.isStrEq "closed" || av.isStrEq "reopened") = false :=
      hbridge ▸ hfalse
    have hrun : handle_issue_event p = Except.ok none := by
      simp only [handle_issue_event, index_of_lookupKey _ _ _ hav, exceptBind_ok, hcf]
      rfl
    rw [hrun, hpb, hfalse]
    exact ⟨rfl, rfl⟩

theorem format_branch_ok (p : Json) (deleted : Bool)
    (hobj : p.isObj = true)
    (hrt : p.lookupKey "ref_type" = some (Json.str "branch"))
    (hsender : hasPath2B p "sender" "login" = true) :
    isOkB (format_branch_notification p deleted) = true := by
  obtain ⟨so, sl, hs1, hs2⟩ := hasPath2B_exists _ _ _ hsender
  simp only [format_branch_notification,
    pyGet_of_isObj p "ref_type" (Json.str "branch") hobj,
    pyGet_of_isObj p "ref" (Json.str "unknown") hobj,
    index_of_lookupKey _ _ _ hs1, index_of_lookupKey _ _ _ hs2,
    hrt, Option.getD_some, Json.asStr, exceptBind_ok]
  rfl

theorem handle_create_spec (p : Json) (h : branchWF p = true) :
    isOkB (handle_create_event p) = true ∧
    resultNotif (handle_create_event p) = handledPairB "create" p := by
  rw [branchWF, Bool.and_eq_true] at h
  obtain ⟨hobj, hcond⟩ := h
  have hpb : handledPairB "create" p =
      ((p.lookupKey "ref_type").getD Json.null).isStrEq "branch" := rfl
  by_cases hb : ((p.lookupKey "ref_type").getD Json.null).isStrEq "branch" = true
  · have hrt : p.lookupKey "ref_type" = some (Json.str "branch") := by
      rcases hl : p.lookupKey "ref_type" with _ | v
      · rw [hl] at hb
        exact absurd hb (by simp [Json.isStrEq])
      · rw [hl, Option.getD_some] at hb
        rw [isStrEq_eq _ _ hb]
    rw [if_pos hb] at hcond
    have hok := format_branch_ok p false hobj hrt hcond
    rcases hfmt : format_branch_notification p false with err | e
    · rw [hfmt] at hok
      exact absurd hok (by simp [isOkB])
    · have hbt : ((p.lookupKey "ref_type").getD Json.null).isStrEq "branch" = true := hb
      have hrun : handle_create_event p = Except.ok (some e) := by
        simp only [handle_create_event, pyGet_of_isObj p "ref_type" Json.null hobj,
          exceptBind_ok, hbt, hfmt]
        rfl
      rw [hrun, hpb, hb]
      exact ⟨rfl, rfl⟩
  · have hf : ((p.lookupKey "ref_type").getD Json.null).isStrEq "branch" = false := by
      cases hx : ((p.lookupKey "ref_type").getD Json.null).isStrEq "branch"
      · rfl
      · exact absurd hx hb
    have hrun : handle_create_event p = Except.ok none := by
      simp only [handle_create_event, pyGet_of_isObj p "ref_type" Json.null hobj,
        exceptBind_ok, hf]
      rfl
    rw [hrun, hpb, hf]
    exact ⟨rfl, rfl⟩

theorem handle_delete_spec (p : Json) (h : branchWF p = true) :
    isOkB (handle_delete_event p) = true ∧
    resultNotif (handle_delete_event p) = handledPairB "delete" p := by
  rw [branchWF, Bool.and_eq_true] at h
  obtain ⟨hobj, hcond⟩ := h
  have hpb : handledPairB "delete" p =
      ((p.lookupKey "ref_type").getD Json.null).isStrEq "branch" := rfl
  by_cases hb : ((p.lookupKey "ref_type").getD Json.null).isStrEq "branch" = true
  · have hrt : p.lookupKey "ref_type" = some (Json.str "branch") := by
      rcases hl : p.lookupKey "ref_type" with _ | v
      · rw [hl] at hb
        exact absurd hb (by simp [Json.isStrEq])
      · rw [hl, Option.getD_some] at hb
        rw [isStrEq_eq _ _ hb]
    rw [if_pos hb] at hcond
    have hok := format_branch_ok p true hobj hrt hcond
    rcases hfmt : format_branch_notification p true with err | e
    · rw [hfmt] at hok
      exact absurd hok (by simp [isOkB])
    · have hbt : ((p.lookupKey "ref_type").getD Json.null).isStrEq "branch" = true := hb
      have hrun : handle_delete_event p = Except.ok (some e) := by
        simp only [handle_delete_event, pyGet_of_isObj p "ref_type" Json.null hobj,
          exceptBind_ok, hbt, hfmt]
        rfl
      rw [hrun, hpb, hb]
      exact ⟨rfl, rfl⟩
  · have hf : ((p.lookupKey "ref_type").getD Json.null).isStrEq "branch" = false := by
      cases hx : ((p.lookupKey "ref_type").getD Json.null).isStrEq "branch"
      · rfl
      · exact absurd hx hb
    have hrun : handle_delete_event p = Except.ok none := by
      simp only [handle_delete_event, pyGet_of_isObj p "ref_type" Json.null hobj,
        exceptBind_ok, hf]
      rfl
    rw [hrun, hpb, hf]
    exact ⟨rfl, rfl⟩

theorem handle_review_comment_spec (p : Json) (hact : hasKeyB p "action" = true) :
    handle_review_comment_event p = Except.ok none := by
  obtain ⟨av, hav⟩ := hasKeyB_exists p "action" hact
  simp only [handle_review_comment_event, index_of_lookupKey _ _ _ hav, exceptBind_ok,
    ite_self]
  rfl

theorem handle_webhook_200 (f : String → List Nat → String) (secret : String)
    (body : List Nat) (sig : Option String) (et : String) (p : Json) (emb : Option Embed)
    (hv : verify_signature f secret body sig = true) (het : et ≠ "")
    (ht : p.truthy = true) (hpe : processEvent et p = Except.ok emb) :
    handle_webhook f secret ⟨body, sig, some et, some p⟩ =
      ⟨200, Json.obj [("status", Json.str "success")], emb⟩ := by
  simp [handle_webhook, hv, het, ht, hpe]

theorem handle_webhook_500 (f : String → List Nat → String) (secret : String)
    (body : List Nat) (sig : Option String) (et : String) (p : Json) (err : PyErr)
    (hv : verify_signature f secret body sig = true) (het : et ≠ "")
    (ht : p.truthy = true) (hpe : processEvent et p = Except.error err) :
    handle_webhook f secret ⟨body, sig, some et, some p⟩ =
      ⟨500, Json.obj [("error", Json.str "Internal server error")], none⟩ := by
  simp [handle_webhook, hv, het, ht, hpe]

/-- Claim C2: on a payload that carries the fields its event type dereferences,
classification is total and error-free and produces a notification exactly for
the handled (event type, payload) pairs of the spec's section 4.2 table;
every other pair, including `pull_request_review_comment` and every unlisted
event type, yields no notification and the HTTP 200 success response. -/
theorem classifier_matches_table (et : String) (p : Json)
    (hwf : wellFormedFor et p = true) :
    isOkB (processEvent et p) = true ∧
    resultNotif (processEvent et p) = handledPairB et p ∧
    (∀ f secret body sig, verify_signature f secret body sig = true → et ≠ "" →
      p.truthy = true →
      handle_webhook f secret ⟨body, sig, some et, some p⟩ =
        ⟨200, Json.obj [("status", Json.str "success")], notifOf (processEvent et p)⟩) := by
  have main : isOkB (processEvent et p) = true ∧
      resultNotif (processEvent et p) = handledPairB et p := by
    by_cases h1 : et = "push"
    · subst h1
      rw [wellFormedFor, if_pos rfl] at hwf
      have hpe : processEvent "push" p = handle_push_event p := rfl
      rw [hpe]
      exact handle_push_spec p hwf
    · by_cases h2 : et = "pull_request"
      · subst h2
        rw [wellFormedFor, if_neg (by decide), if_pos rfl] at hwf
        have hpe : processEvent "pull_request" p = handle_pull_request_event p := rfl
        rw [hpe]
        exact handle_pr_spec p hwf
      · by_cases h3 : et = "pull_request_review"
        · subst h3
          rw [wellFormedFor, if_neg (by decide), if_neg (by decide), if_pos rfl] at hwf
          have hpe : processEvent "pull_request_review" p = handle_review_event p := rfl
          rw [hpe]
          exact handle_review_spec p hwf
        · by_cases h4 : et = "pull_request_review_comment"
          · subst h4
            rw [wellFormedFor, if_neg (by decide), if_neg (by decide), if_neg (by decide),
              if_pos rfl, Bool.and_eq_true] at hwf
            have hpe : processEvent "pull_request_review_comment" p
                = handle_review_comment_event p := rfl
            rw [hpe, handle_review_comment_spec p hwf.2]
            exact ⟨rfl, rfl⟩
          · by_cases h5 : et = "issues"
            · subst h5
              rw [wellFormedFor, if_neg (by decide), if_neg (by decide), if_neg (by decide),
                if_neg (by decide), if_pos rfl] at hwf
              have hpe : processEvent "issues" p = handle_issue_event p := rfl
              rw [hpe]
              exact handle_issue_spec p hwf
            · by_cases h6 : et = "create"
              · subst h6
                rw [wellFormedFor, if_neg (by decide), if_neg (by decide), if_neg (by decide),
                  if_neg (by decide), if_neg (by decide), if_pos rfl] at hwf
                have hpe : processEvent "create" p = handle_create_event p := rfl
                rw [hpe]
                exact handle_create_spec p hwf
              · by_cases h7 : et = "delete"
                · subst h7
                  rw [wellFormedFor, if_neg (by decide), if_neg (by decide),
                    if_neg (by decide), if_neg (by decide), if_neg (by decide),
                    if_neg (by decide), if_pos rfl] at hwf
                  have hpe : processEvent "delete" p = handle_delete_event p := rfl
                  rw [hpe]
                  exact handle_delete_spec p hwf
                · have hpe : processEvent et p = Except.ok none := by
                    rw [processEvent, if_neg h1, if_neg h2, if_neg h3, if_neg h4,
                      if_neg h5, if_neg h6, if_neg h7]
                  have hhb : handledPairB et p = false := by
                    rw [handledPairB, if_neg h1, if_neg h2, if_neg h3, if_neg h5,
                      if_neg h6, if_neg h7]
                  rw [hpe, hhb]
                  exact ⟨rfl, rfl⟩
  refine ⟨main.1, main.2, ?_⟩
  intro f secret body sig hv het ht
  rcases hpe : processEvent et p with err | emb
  · rw [hpe] at main
    exact absurd main.1 (by simp [isOkB])
  · have hn : notifOf (Except.ok emb) = emb := rfl
    rw [hn]
    exact handle_webhook_200 f secret body sig et p emb hv het ht hpe

/-- Witness for C2: a well-formed `issues` payload with action `opened`. -/
theorem classifier_matches_table_witness :
    isOkB (processEvent "issues"
      (Json.obj [("action", Json.str "opened"),
        ("issue", Json.obj [("number", Json.num 1), ("title", Json.str "t"),
          ("user", Json.obj [("login", Json.str "u")]),
          ("html_url", Json.str "h")])])) = true ∧
    resultNotif (processEvent "issues"
      (Json.obj [("action", Json.str "opened"),
        ("issue", Json.obj [("number", Json.num 1), ("title", Json.str "t"),
          ("user", Json.obj [("login", Json.str "u")]),
          ("html_url", Json.str "h")])]))
      = handledPairB "issues"
          (Json.obj [("action", Json.str "opened"),
            ("issue", Json.obj [("number", Json.num 1), ("title", Json.str "t"),
              ("user", Json.obj [("login", Json.str "u")]),
              ("html_url", Json.str "h")])]) := by
  have h := classifier_matches_table "issues"
    (Json.obj [("action", Json.str "opened"),
      ("issue", Json.obj [("number", Json.num 1), ("title", Json.str "t"),
        ("user", Json.obj [("login", Json.str "u")]),
        ("html_url", Json.str "h")])]) (by decide)
  exact ⟨h.1, h.2.1⟩

/-- Claim C3: the `POST /webhook` checks run in the order signature →
event-type header → payload, with exactly the documented status codes and
bodies.  The 401 branch holds for every event header and payload value
(both are theorem parameters), so an invalid signature short-circuits before
the payload is ever inspected and no classification occurs. -/
theorem webhook_response_order (f : String → List Nat → String) (secret : String)
    (body : List Nat) (sig : Option String) (et : Option String) (pl : Option Json) :
    (verify_signature f secret body sig = false →
      handle_webhook f secret ⟨body, sig, et, pl⟩ =
        ⟨401, Json.obj [("error", Json.str "Invalid signature")], none⟩) ∧
    (verify_signature f secret body sig = true → (et = none ∨ et = some "") →
      handle_webhook f secret ⟨body, sig, et, pl⟩ =
        ⟨400, Json.obj [("error", Json.str "No event type")], none⟩) ∧
    (verify_signature f secret body sig = true →
      ∀ e, et = some e → e ≠ "" →
      (pl = none ∨ ∃ p, pl = some p ∧ p.truthy = false) →
      handle_webhook f secret ⟨body, sig, et, pl⟩ =
        ⟨400, Json.obj [("error", Json.str "No payload")], none⟩) ∧
    (verify_signature f secret body sig = true →
      ∀ e p, et = some e → e ≠ "" → pl = some p → p.truthy = true →
      ((∀ emb, processEvent e p = Except.ok emb →
          handle_webhook f secret ⟨body, sig, et, pl⟩ =
            ⟨200, Json.obj [("status", Json.str "success")], emb⟩) ∧
       (∀ err, processEvent e p = Except.error err →
          handle_webhook f secret ⟨body, sig, et, pl⟩ =
            ⟨500, Json.obj [("error", Json.str "Internal server error")], none⟩))) := by
  refine ⟨?_, ?_, ?_, ?_⟩
  · intro hv
    simp [handle_webhook, hv]
  · intro hv het
    rcases het with het | het <;> subst het <;> simp [handle_webhook, hv]
  · intro hv e het hene hp
    subst het
    rcases hp with hp | ⟨p, hp, hpt⟩
    · subst hp
      simp [handle_webhook, hv, hene]
    · subst hp
      simp [handle_webhook, hv, hene, hpt]
  · intro hv e p het hene hp hpt
    subst het
    subst hp
    exact ⟨fun emb hemb => handle_webhook_200 f secret body sig e p emb hv hene hpt hemb,
           fun err herr => handle_webhook_500 f secret body sig e p err hv hene hpt herr⟩

/-- Witness for C3 exercising the 401, 400 (both kinds) and 200 branches at
concrete requests. -/
theorem webhook_response_order_witness :
    handle_webhook unaryEnc "k"
        ⟨[], some "sha256=x", some "push", some (Json.obj [("a", Json.num 1)])⟩ =
      ⟨401, Json.obj [("error", Json.str "Invalid signature")], none⟩ ∧
    handle_webhook unaryEnc "k"
        ⟨[], some "sha256=", none, some (Json.obj [("a", Json.num 1)])⟩ =
      ⟨400, Json.obj [("error", Json.str "No event type")], none⟩ ∧
    handle_webhook unaryEnc "k" ⟨[], some "sha256=", some "ping", none⟩ =
      ⟨400, Json.obj [("error", Json.str "No payload")], none⟩ ∧
    handle_webhook unaryEnc "k"
        ⟨[], some "sha256=", some "ping", some (Json.obj [("a", Json.num 1)])⟩ =
      ⟨200, Json.obj [("status", Json.str "success")], none⟩ :=
  ⟨(webhook_response_order unaryEnc "k" [] (some "sha256=x") (some "push")
      (some (Json.obj [("a", Json.num 1)]))).1 (by decide),
   (webhook_response_order unaryEnc "k" [] (some "sha256=") none
      (some (Json.obj [("a", Json.num 1)]))).2.1 (by decide) (Or.inl rfl),
   (webhook_response_order unaryEnc "k" [] (some "sha256=") (some "ping") none).2.2.1
      (by decide) "ping" rfl (by decide) (Or.inl rfl),
   ((webhook_response_order unaryEnc "k" [] (some "sha256=") (some "ping")
      (some (Json.obj [("a", Json.num 1)]))).2.2.2 (by decide) "ping"
      (Json.obj [("a", Json.num 1)]) rfl (by decide) rfl rfl).1 none rfl⟩

theorem index_missing (j : Json) (k : String) (hobj : j.isObj = true)
    (h : hasKeyB j k = false) :
    j.index k = Except.error (PyErr.keyError k) := by
  rw [Json.index, if_pos hobj]
  rcases hl : j.lookupKey k with _ | v
  · rfl
  · rw [hasKeyB, hl] at h
    simp at h

theorem exceptBind_err {α β : Type} (e : PyErr) (f : α → Except PyErr β) :
    (Except.error e >>= f : Except PyErr β) = Except.error e := rfl

/-- Claim C4 counterexample: a signed `create` event whose payload is present and
truthy but lacks `ref_type` is answered with a silent no-notification 200, not
with the 500 the claim requires. -/
theorem create_missing_ref_type_gives_200 :
    handle_webhook unaryEnc "k"
        ⟨[], some "sha256=", some "create", some (Json.obj [("foo", Json.num 1)])⟩ =
      ⟨200, Json.obj [("status", Json.str "success")], none⟩ := rfl

/-- Claim C4 as amended: for `pull_request`, `pull_request_review`,
`pull_request_review_comment` and `issues` a payload missing `action` raises
(`KeyError`) and is answered 500; but `create`/`delete` payloads missing
`ref_type` and `push` payloads missing `commits` are treated as ignorable and
answered with a silent no-notification 200. -/
theorem missing_field_outcomes (p : Json) (hobj : p.isObj = true)
    (ha : hasKeyB p "action" = false) (hr : hasKeyB p "ref_type" = false)
    (hc : hasKeyB p "commits" = false) :
    isOkB (processEvent "pull_request" p) = false ∧
    isOkB (processEvent "pull_request_review" p) = false ∧
    isOkB (processEvent "pull_request_review_comment" p) = false ∧
    isOkB (processEvent "issues" p) = false ∧
    processEvent "create" p = Except.ok none ∧
    processEvent "delete" p = Except.ok none ∧
    processEvent "push" p = Except.ok none ∧
    (∀ f secret body sig, verify_signature f secret body sig = true → p.truthy = true →
      handle_webhook f secret ⟨body, sig, some "pull_request", some p⟩ =
        ⟨500, Json.obj [("error", Json.str "Internal server error")], none⟩ ∧
      handle_webhook f secret ⟨body, sig, some "create", some p⟩ =
        ⟨200, Json.obj [("status", Json.str "success")], none⟩) := by
  have hidx := index_missing p "action" hobj ha
  have hrt : p.lookupKey "ref_type" = none := by
    rw [hasKeyB] at hr
    rcases hl : p.lookupKey "ref_type" with _ | v
    · rfl
    · rw [hl] at hr
      simp at hr
  have hcm : p.lookupKey "commits" = none := by
    rw [hasKeyB] at hc
    rcases hl : p.lookupKey "commits" with _ | v
    · rfl
    · rw [hl] at hc
      simp at hc
  have hpr : processEvent "pull_request" p = Except.error (PyErr.keyError "action") := by
    have : processEvent "pull_request" p = handle_pull_request_event p := rfl
    rw [this]
    simp only [handle_pull_request_event, hidx, exceptBind_err]
  have hrv : processEvent "pull_request_review" p
      = Except.error (PyErr.keyError "action") := by
    have : processEvent "pull_request_review" p = handle_review_event p := rfl
    rw [this]
    simp only [handle_review_event, hidx, exceptBind_err]
  have hrc : processEvent "pull_request_review_comment" p
      = Except.error (PyErr.keyError "action") := by
    have : processEvent "pull_request_review_comment" p
        = handle_review_comment_event p := rfl
    rw [this]
    simp only [handle_review_comment_event, hidx, exceptBind_err]
  have his : processEvent "issues" p = Except.error (PyErr.keyError "action") := by
    have : processEvent "issues" p = handle_issue_event p := rfl
    rw [this]
    simp only [handle_issue_event, hidx, exceptBind_err]
  have hcr : processEvent "create" p = Except.ok none := by
    have : processEvent "create" p = handle_create_event p := rfl
    rw [this]
    simp only [handle_create_event, pyGet_of_isObj p "ref_type" Json.null hobj, hrt,
      Option.getD_none, exceptBind_ok]
    rfl
  have hdl : processEvent "delete" p = Except.ok none := by
    have : processEvent "delete" p = handle_delete_event p := rfl
    rw [this]
    simp only [handle_delete_event, pyGet_of_isObj p "ref_type" Json.null hobj, hrt,
      Option.getD_none, exceptBind_ok]
    rfl
  have hps : processEvent "push" p = Except.ok none := by
    have : processEvent "push" p = handle_push_event p := rfl
    rw [this]
    simp only [handle_push_event, pyGet_of_isObj p "commits" Json.null hobj, hcm,
      Option.getD_none, exceptBind_ok]
    rfl
  refine ⟨by rw [hpr]; rfl, by rw [hrv]; rfl, by rw [hrc]; rfl, by rw [his]; rfl,
    hcr, hdl, hps, ?_⟩
  intro f secret body sig hv hpt
  exact ⟨handle_webhook_500 f secret body sig "pull_request" p _ hv (by decide) hpt hpr,
         handle_webhook_200 f secret body sig "create" p none hv (by decide) hpt hcr⟩

/-- Witness for the amended C4 at a concrete payload lacking all three keys. -/
theorem missing_field_outcomes_witness :
    isOkB (processEvent "pull_request" (Json.obj [("foo", Json.num 1)])) = false ∧
    processEvent "create" (Json.obj [("foo", Json.num 1)]) = Except.ok none :=
  ⟨(missing_field_outcomes (Json.obj [("foo", Json.num 1)]) (by decide) (by decide)
      (by decide) (by decide)).1,
   (missing_field_outcomes (Json.obj [("foo", Json.num 1)]) (by decide) (by decide)
      (by decide) (by decide)).2.2.2.2.1⟩

/-! ### Observations on produced notifications -/

/-- The value of the named `add_field` entry of an embed, if present. -/
def embedFieldVal (e : Embed) (name : String) : Option String :=
  (e.fields.find? (fun fld => fld.name == name)).map EmbedField.value

/-- The named field of the notification an outcome carries. -/
def notifField (r : Except PyErr (Option Embed)) (name : String) : Option String :=
  match notifOf r with
  | some e => embedFieldVal e name
  | none => none

/-- The color of the notification an outcome carries. -/
def notifColor (r : Except PyErr (Option Embed)) : Option Nat :=
  (notifOf r).map Embed.color

/-- The description of the notification an outcome carries. -/
def notifDescr (r : Except PyErr (Option Embed)) : Option String :=
  (notifOf r).bind Embed.description

/-- A `pull_request` payload with action `closed`, arbitrary field values and
the given `merged` flag (input constructor for the claims about PR styling). -/
def mkClosedPR (merged : Bool) (n t u h b url : Json) : Json :=
  Json.obj [("action", Json.str "closed"),
    ("pull_request", Json.obj [("number", n), ("title", t),
      ("user", Json.obj [("login", u)]),
      ("head", Json.obj [("ref", h)]), ("base", Json.obj [("ref", b)]),
      ("html_url", url), ("merged", Json.bool merged)])]

/-- Claim C6: a closed-and-merged pull request notifies with status `Merged`
in purple, a closed-unmerged one with status `Closed` in red; both produce a
notification, for every choice of the remaining payload field values. -/
theorem closed_merged_distinct (n t u h b url : Json) :
    resultNotif (handle_pull_request_event (mkClosedPR true n t u h b url)) = true ∧
    notifField (handle_pull_request_event (mkClosedPR true n t u h b url)) "Status"
      = some "Merged" ∧
    notifColor (handle_pull_request_event (mkClosedPR true n t u h b url))
      = some COLOR_PURPLE ∧
    resultNotif (handle_pull_request_event (mkClosedPR false n t u h b url)) = true ∧
    notifField (handle_pull_request_event (mkClosedPR false n t u h b url)) "Status"
      = some "Closed" ∧
    notifColor (handle_pull_request_event (mkClosedPR false n t u h b url))
      = some COLOR_RED :=
  ⟨rfl, rfl, rfl, rfl, rfl, rfl⟩

/-- A commit entry of a `push` payload (input constructor). -/
def mkCommit (msg authorName url : String) : Json :=
  Json.obj [("message", Json.str msg),
    ("author", Json.obj [("name", Json.str authorName)]),
    ("url", Json.str url)]

/-- A `push` payload with the given commit list (input constructor). -/
def mkPushPayload (ref : String) (commits : List Json)
    (pusherName repoName compareUrl : String) : Json :=
  Json.obj [("ref", Json.str ref), ("commits", Json.arr commits),
    ("pusher", Json.obj [("name", Json.str pusherName)]),
    ("repository", Json.obj [("name", Json.str repoName)]),
    ("compare", Json.str compareUrl)]

/-- Claim C7: a push with an empty or absent commit list yields no
notification; with one commit the `Commits` field shows `1`; with `N > 1`
commits the description is the first commit's message's first line truncated
to 100 characters and the `Commits` field shows `N`. -/
theorem push_notification_contents (ref pn rn cu msg an cu1 : String)
    (c2 : Json) (rest : List Json) :
    handle_push_event (mkPushPayload ref [] pn rn cu) = Except.ok none ∧
    handle_push_event (Json.obj [("ref", Json.str ref)]) = Except.ok none ∧
    resultNotif (handle_push_event (mkPushPayload ref [mkCommit msg an cu1] pn rn cu))
      = true ∧
    notifField (handle_push_event (mkPushPayload ref [mkCommit msg an cu1] pn rn cu))
      "Commits" = some "1" ∧
    notifDescr (handle_push_event
        (mkPushPayload ref (mkCommit msg an cu1 :: c2 :: rest) pn rn cu))
      = some ("**" ++ String.mk (((pySplit '\n' msg.data).getD 0 []).take 100) ++ "**") ∧
    notifField (handle_push_event
        (mkPushPayload ref (mkCommit msg an cu1 :: c2 :: rest) pn rn cu))
      "Commits" = some (toString (rest.length + 2)) := by
  refine ⟨rfl, rfl, rfl, ?_, rfl, ?_⟩
  · show some (toString (List.length [mkCommit msg an cu1])) = some "1"
    show some (toString (1 : Nat)) = some "1"
    rfl
  · show some (toString (List.length (mkCommit msg an cu1 :: c2 :: rest)))
        = some (toString (rest.length + 2))
    show some (toString (rest.length + 2)) = some (toString (rest.length + 2))
    rfl

/-- Claim C9 counterexample: a `GithubException` in the upstream call of `/prs` is
swallowed inside the API wrapper, so the user receives the normal,
non-ephemeral "No open pull requests found." embed instead of the apologetic
ephemeral error message the claim requires. -/
theorem prs_github_error_shows_empty_list :
    list_prs Upstream.githubExc =
      ⟨none, some ⟨"Open Pull Requests", some "No open pull requests found.",
        COLOR_BLUE, none, [], none⟩, false⟩ := rfl

/-- Claim C9 as amended: a `GithubException` in the `/prs` upstream call is caught
inside `get_open_pull_requests`, which returns an empty list, so the user sees
the normal empty-result embed (not ephemeral); only a non-`GithubException`
failure reaches the command handler and produces the generic apologetic
ephemeral message; in every case the command returns a defined response, so
the failure never propagates as an unhandled fault. -/
theorem prs_error_paths :
    list_prs Upstream.githubExc = ⟨none, some (format_pr_list []), false⟩ ∧
    (list_prs Upstream.githubExc).ephemeral = false ∧
    list_prs Upstream.otherExc =
      ⟨some "An error occurred while fetching pull requests. Please try again later.",
        none, true⟩ ∧
    (∀ prs, list_prs (Upstream.ok prs) = ⟨none, some (format_pr_list prs), false⟩) :=
  ⟨rfl, rfl, rfl, fun _ => rfl⟩

end GhDiscord
